import Mathlib

/-!
Verification of the `exa` listing engine: a shallow embedding of the
filter/sort pipeline (src/options.rs), the directory-action and recursion
options (src/options/dir_action.rs), the column resolver (src/output/column.rs
and the legacy copies in src/options.rs), the view resolver
(src/options/view.rs), and the traversal controller (src/exa.rs,
src/bin/main.rs), together with theorems settling the frozen claims.

Machine integers: the only integer data the claims touch are sizes, inodes
and timestamps, used purely for ordering, so they are embedded as `Nat`/`Int`.
Rust's stable `sort_by` is embedded as a stable insertion sort (`sortByStable`),
which agrees with any stable sort for the comparators used here.
-/

namespace Exa

/-! ## Ordering primitives

Rust's `Ord` on the relevant base types, written with explicit `<` tests so
everything reduces by `decide`/`rfl`. -/

/-- Rust `bool::cmp`: `false < true`. -/
def boolCmp : Bool → Bool → Ordering
  | false, true => .lt
  | true, false => .gt
  | _, _ => .eq

/-- Rust `u64::cmp` (sizes, inodes), embedded on `Nat`. -/
def natCmp3 (x y : Nat) : Ordering :=
  if x < y then .lt else if y < x then .gt else .eq

/-- Rust `i64::cmp` (timestamps), embedded on `Int`. -/
def intCmp3 (x y : Int) : Ordering :=
  if x < y then .lt else if y < x then .gt else .eq

/-- Rust `char::cmp`: comparison by code point. -/
def charCmp (a b : Char) : Ordering :=
  if a.toNat < b.toNat then .lt else if b.toNat < a.toNat then .gt else .eq

/-- Rust `str::cmp`: lexicographic comparison (on code points; identical to
the byte order for the ASCII names used in the claims). -/
def charListCmp : List Char → List Char → Ordering
  | [], [] => .eq
  | [], _ :: _ => .lt
  | _ :: _, [] => .gt
  | a :: as, b :: bs =>
    match charCmp a b with
    | .eq => charListCmp as bs
    | ord => ord

def strCmp (a b : String) : Ordering :=
  charListCmp a.data b.data

/-- Rust `Option<String>::cmp`: `None` sorts before `Some`. -/
def optStrCmp : Option String → Option String → Ordering
  | none, none => .eq
  | none, some _ => .lt
  | some _, none => .gt
  | some a, some b => strCmp a b

/-! ## Natural ordering (the `natord` crate)

Modelled from the spec: the `natord` crate is an external dependency whose
source is not part of this repository; the spec defines natural order as
string comparison treating embedded digit runs as numbers ("digit runs
compared numerically, not lexically"). The recursion is bounded by a fuel
argument so that the definition is structural; `natordCompare` always
supplies enough fuel, since every step consumes at least one character
from each side. -/

def digitVal (c : Char) : Nat := c.toNat - 48

def takeDigits (l : List Char) : List Char := l.takeWhile Char.isDigit

def dropDigits (l : List Char) : List Char := l.dropWhile Char.isDigit

def digitsToNat (l : List Char) : Nat :=
  l.foldl (fun acc c => acc * 10 + digitVal c) 0

def natCmpAux : Nat → List Char → List Char → Ordering
  | _, [], [] => .eq
  | _, [], _ :: _ => .lt
  | _, _ :: _, [] => .gt
  | 0, _ :: _, _ :: _ => .eq
  | fuel + 1, a :: as, b :: bs =>
    if a.isDigit && b.isDigit then
      match natCmp3 (digitsToNat (takeDigits (a :: as))) (digitsToNat (takeDigits (b :: bs))) with
      | .eq => natCmpAux fuel (dropDigits (a :: as)) (dropDigits (b :: bs))
      | ord => ord
    else
      match charCmp a b with
      | .eq => natCmpAux fuel as bs
      | ord => ord

def natordCompare (a b : String) : Ordering :=
  natCmpAux (a.data.length + b.data.length) a.data b.data

/-! ## The file model (src/fs/file.rs, captured metadata)

An `Entry` as the spec's data model describes it: name, extension (derived
from the name at construction time in the absent src/fs/file.rs, carried
here as a captured field), the stat metadata used by the sort keys, and the
directory bit. -/

structure Metadata where
  len : Nat
  ino : Nat
  mtime : Int
  atime : Int
  ctime : Int
deriving DecidableEq, Repr

structure File where
  name : String
  ext : Option String
  metadata : Metadata
  is_directory : Bool
deriving DecidableEq, Repr

/-- Modelled from the spec: `File::is_dotfile` lives in src/fs/file.rs, which
is absent from the sources; the spec says hidden entries are exactly those
whose name begins with `.`. -/
def File.is_dotfile (f : File) : Bool :=
  match f.name.data with
  | [] => false
  | c :: _ => c = '.'

/-! ## Sort fields and the file filter (src/options.rs lines 189-253) -/

inductive SortField where
  | Unsorted
  | Name
  | Extension
  | Size
  | FileInode
  | ModifiedDate
  | AccessedDate
  | CreatedDate
deriving DecidableEq, Repr

structure FileFilter where
  list_dirs_first : Bool
  reverse : Bool
  show_invisibles : Bool
  sort_field : SortField
deriving DecidableEq, Repr

/-- `FileFilter::compare_files` (src/options.rs lines 238-252). -/
def FileFilter.compare_files (ff : FileFilter) (a b : File) : Ordering :=
  match ff.sort_field with
  | .Unsorted => .eq
  | .Name => natordCompare a.name b.name
  | .Size => natCmp3 a.metadata.len b.metadata.len
  | .FileInode => natCmp3 a.metadata.ino b.metadata.ino
  | .ModifiedDate => intCmp3 a.metadata.mtime b.metadata.mtime
  | .AccessedDate => intCmp3 a.metadata.atime b.metadata.atime
  | .CreatedDate => intCmp3 a.metadata.ctime b.metadata.ctime
  | .Extension =>
    match optStrCmp a.ext b.ext with
    | .eq => natordCompare a.name b.name
    | ord => ord

/-- Stable insertion: an element sinks past `b` only when it compares
strictly greater, so earlier elements stay before equal later ones. This is
the standard extensional model of Rust's stable `Vec::sort_by`. -/
def insertBy (cmp : α → α → Ordering) (a : α) : List α → List α
  | [] => [a]
  | b :: bs =>
    match cmp a b with
    | .gt => b :: insertBy cmp a bs
    | _ => a :: b :: bs

def sortByStable (cmp : α → α → Ordering) : List α → List α
  | [] => []
  | a :: as => insertBy cmp a (sortByStable cmp as)

/-- The directories-first pass (src/options.rs lines 232-235): a stable sort
on the single boolean `is_directory`, descending (`b.cmp(&a)`). -/
def dirsFirstPass (files : List File) : List File :=
  sortByStable (fun a b => boolCmp b.is_directory a.is_directory) files

/-- `FileFilter::sort_files` (src/options.rs lines 225-236). -/
def FileFilter.sort_files (ff : FileFilter) (files : List File) : List File :=
  let files := sortByStable ff.compare_files files
  let files := if ff.reverse then files.reverse else files
  if ff.list_dirs_first then dirsFirstPass files else files

/-- `FileFilter::filter_files` (src/options.rs lines 218-222): remove
dotfiles unless `show_invisibles` is set. -/
def FileFilter.filter_files (ff : FileFilter) (files : List File) : List File :=
  if ff.show_invisibles = false then files.filter (fun f => !f.is_dotfile) else files

/-! ## Directory actions & recursion (src/options/dir_action.rs) -/

structure RecurseOptions where
  tree : Bool
  max_depth : Option Nat
deriving DecidableEq, Repr

/-- `RecurseOptions::is_too_deep` (src/options/dir_action.rs lines 90-97;
the identical legacy copy is src/options.rs lines 305-312). -/
def RecurseOptions.is_too_deep (ro : RecurseOptions) (depth : Nat) : Bool :=
  match ro.max_depth with
  | none => false
  | some d => d ≤ depth

inductive DirAction where
  | AsFile
  | List
  | Recurse (opts : RecurseOptions)
deriving DecidableEq, Repr

/-- `DirAction::recurse_options` (src/options/dir_action.rs lines 39-44). -/
def DirAction.recurse_options : DirAction → Option RecurseOptions
  | .Recurse opts => some opts
  | _ => none

/-- `DirAction::treat_dirs_as_files` (src/options/dir_action.rs lines 47-53). -/
def DirAction.treat_dirs_as_files : DirAction → Bool
  | .AsFile => true
  | .Recurse ro => ro.tree
  | _ => false

/-- The depth the traversal controller computes for a directory
(src/exa.rs line 124): the number of non-`CurDir` path components plus one.
A path is embedded as its list of components; the `CurDir` component is ".". -/
def dirDepth (path : List String) : Nat :=
  (path.filter (fun c => c ≠ ".")).length + 1

/-- The controller's descent condition (src/exa.rs line 125): with recursion
configured, descend from a directory into its child directories iff the tree
sub-mode is off and the directory's computed depth is not too deep. -/
def descends (ro : RecurseOptions) (path : List String) : Bool :=
  !ro.tree && !ro.is_too_deep (dirDepth path)

/-! ## Columns and time types (src/output/column.rs, src/options.rs) -/

inductive SizeFormat where
  | DecimalBytes
  | BinaryBytes
  | JustBytes
deriving DecidableEq, Repr

inductive TimeType where
  | Accessed
  | Modified
  | Created
deriving DecidableEq, Repr

structure TimeTypes where
  accessed : Bool
  modified : Bool
  created : Bool
deriving DecidableEq, Repr

/-- The `Default` impl for `TimeTypes` (src/output/column.rs lines 226-230):
only the modified column. -/
def timeTypesDefault : TimeTypes :=
  { accessed := false, modified := true, created := false }

inductive Column where
  | Permissions
  | FileSize (format : SizeFormat)
  | Timestamp (t : TimeType)
  | Blocks
  | User
  | Group
  | HardLinks
  | Inode
  | GitStatus
deriving DecidableEq, Repr

structure Columns where
  size_format : SizeFormat
  time_types : TimeTypes
  inode : Bool
  links : Bool
  blocks : Bool
  group : Bool
  git : Bool
deriving DecidableEq, Repr

def Columns.should_scan_for_git (c : Columns) : Bool := c.git

/-- `Columns::for_dir` (src/output/column.rs lines 76-122). `gitFeature`
models the compile-time `cfg!(feature="git")`; `dir` models the
`Option<&Dir>` argument through the only bit `for_dir` reads from it,
`d.has_git_repo()`. -/
def Columns.for_dir (c : Columns) (gitFeature : Bool) (dir : Option Bool) : List Column :=
  let columns : List Column := []
  let columns := if c.inode then columns ++ [.Inode] else columns
  let columns := columns ++ [.Permissions]
  let columns := if c.links then columns ++ [.HardLinks] else columns
  let columns := columns ++ [.FileSize c.size_format]
  let columns := if c.blocks then columns ++ [.Blocks] else columns
  let columns := columns ++ [.User]
  let columns := if c.group then columns ++ [.Group] else columns
  let columns := if c.time_types.modified then columns ++ [.Timestamp .Modified] else columns
  let columns := if c.time_types.created then columns ++ [.Timestamp .Created] else columns
  let columns := if c.time_types.accessed then columns ++ [.Timestamp .Accessed] else columns
  if gitFeature then
    match dir with
    | some hasRepo =>
      if c.should_scan_for_git && hasRepo then columns ++ [.GitStatus] else columns
    | none => columns
  else columns

/-- The `TimeFields` arg_enum (src/options.rs lines 424-430). -/
inductive TimeField where
  | Modified
  | Accessed
  | Created
deriving DecidableEq, Repr

/-- The `for t in values_of("time")` loop of the legacy `TimeTypes::deduce`
(src/options.rs lines 447-455), folded over the `(modified, created,
accessed)` flags. -/
def applyTimeFields : List TimeField → Bool × Bool × Bool → Bool × Bool × Bool
  | [], mca => mca
  | .Modified :: ts, (_, c, a) => applyTimeFields ts (true, c, a)
  | .Created :: ts, (m, _, a) => applyTimeFields ts (m, true, a)
  | .Accessed :: ts, (m, c, _) => applyTimeFields ts (m, c, true)

/-- The legacy `TimeTypes::deduce` (src/options.rs lines 443-461): flags and
`--time` values accumulate; if none of the three ends up toggled, the
default set (modified only) is used. -/
def timeTypesDeduce (modified created accessed : Bool) (time : Option (List TimeField)) : TimeTypes :=
  let mca :=
    match time with
    | some ts => applyTimeFields ts (modified, created, accessed)
    | none => (modified, created, accessed)
  if mca.1 || mca.2.1 || mca.2.2 then
    { accessed := mca.2.2, modified := mca.1, created := mca.2.1 }
  else timeTypesDefault

/-- `FromStr for TimeTypes` (src/output/column.rs lines 232-243). The
catch-all arm is `unreachable!()` in the source, modelled as `none`. -/
def timeTypesFromStr (s : String) : Option TimeTypes :=
  if s = "mod" ∨ s = "modified" then some { accessed := false, modified := true, created := false }
  else if s = "acc" ∨ s = "accessed" then some { accessed := true, modified := false, created := false }
  else if s = "cr" ∨ s = "created" then some { accessed := false, modified := false, created := true }
  else none

/-- The modular `From<&ArgMatches> for TimeTypes` (src/output/column.rs
lines 212-223): a `--time` word overrides the flags entirely (`.unwrap()` on
an unparsable word panics in the source; that arm is unreachable for valid
input and modelled with `getD`). Note this impl has no fallback to the
default set. -/
def timeTypesFrom (modified created accessed : Bool) (time : Option String) : TimeTypes :=
  match time with
  | some word => (timeTypesFromStr word).getD { accessed := false, modified := false, created := false }
  | none => { accessed := accessed, modified := modified, created := created }

/-! ## The view resolver (src/options/view.rs) -/

inductive TerminalColours where
  | Always
  | Automatic
  | Never
deriving DecidableEq, Repr

/-- The parsed command-line matches, restricted to the flags the embedded
functions read (`matches.is_present(..)` / `matches.value_of(..)`). The
`color` field carries the already-parsed choice — `value_of("color")` always
parses via `FromStr for TerminalColours` (src/options/view.rs lines
218-234), whose catch-all arm is unreachable for clap-validated input. -/
structure Matches where
  oneline : Bool
  tree : Bool
  long : Bool
  grid : Bool
  across : Bool
  header : Bool
  extended : Bool
  color_scale : Bool
  color : TerminalColours
  binary : Bool
  bytes : Bool
  inode : Bool
  links : Bool
  blocks : Bool
  group : Bool
  git : Bool
  modified : Bool
  created : Bool
  accessed : Bool
  time : Option String
deriving DecidableEq, Repr

/-- Colour configuration. The palette itself (src/output/colours.rs) is out
of the spec's scope; only which of `Colours::colourful(scale)` /
`Colours::plain()` was chosen is recorded. -/
structure Colours where
  colourful : Bool
  scale : Bool
deriving DecidableEq, Repr

def Colours.mkColourful (scale : Bool) : Colours := { colourful := true, scale := scale }

def Colours.mkPlain : Colours := { colourful := false, scale := false }

/-- `From<&ArgMatches> for TerminalColours` (src/options/view.rs lines
230-234): read and parse the `color` value. -/
def terminalColoursFrom (m : Matches) : TerminalColours :=
  m.color

/-- `From<&ArgMatches> for SizeFormat` (src/options/view.rs lines 186-194). -/
def sizeFormatFrom (m : Matches) : SizeFormat :=
  if m.binary then .BinaryBytes
  else if m.bytes then .JustBytes
  else .DecimalBytes

/-- `From<&ArgMatches> for Columns` (src/output/column.rs lines 125-137).
`gitFeature` models `cfg!(feature="git")`. -/
def columnsFrom (gitFeature : Bool) (m : Matches) : Columns :=
  { size_format := sizeFormatFrom m
    time_types := timeTypesFrom m.modified m.created m.accessed m.time
    inode := m.inode
    links := m.links
    blocks := m.blocks
    group := m.group
    git := gitFeature && m.git }

structure Grid where
  across : Bool
  console_width : Nat
  colours : Colours
deriving DecidableEq, Repr

structure Lines where
  colours : Colours
deriving DecidableEq, Repr

structure Details where
  columns : Option Columns
  header : Bool
  recurse : Option RecurseOptions
  filter : FileFilter
  xattr : Bool
  colours : Colours
deriving DecidableEq, Repr

structure GridDetails where
  grid : Grid
  details : Details
deriving DecidableEq, Repr

inductive View where
  | Details (d : Details)
  | Grid (g : Grid)
  | GridDetails (gd : GridDetails)
  | Lines (l : Lines)
deriving DecidableEq, Repr

def View.isDetails : View → Bool
  | .Details _ => true
  | _ => false

def View.isGrid : View → Bool
  | .Grid _ => true
  | _ => false

def View.isGridDetails : View → Bool
  | .GridDetails _ => true
  | _ => false

def View.isLines : View → Bool
  | .Lines _ => true
  | _ => false

/-- `TerminalWidth::deduce` composed with its `as_ref` view
(src/options/view.rs lines 147-173): a parsed `COLUMNS` override wins
(`Set`), otherwise the terminal dimensions (`Terminal`), otherwise no width
(`Unset` / `None`). `columnsEnv` is the already-parsed `COLUMNS` value (a
parse failure raises `Misfire::FailedParse` before any view exists and is
outside every claim). -/
def termWidthDeduce (columnsEnv : Option Nat) (dims : Option Nat) : Option Nat :=
  match columnsEnv with
  | some w => some w
  | none => dims

/-- `View::deduce` (src/options/view.rs lines 26-129). `dims` models
`term::dimensions()` (the width component); `xattrEnabled` models
`xattr::ENABLED`; `gitFeature` models `cfg!(feature="git")`. -/
def viewDeduce (m : Matches) (columnsEnv : Option Nat) (dims : Option Nat)
    (filter : FileFilter) (dir_action : DirAction)
    (xattrEnabled : Bool) (gitFeature : Bool) : View :=
  let colour_scale := m.color_scale
  let term_colours := terminalColoursFrom m
  let longDetails : Details :=
    let colours :=
      match term_colours with
      | .Always => Colours.mkColourful colour_scale
      | .Never => Colours.mkPlain
      | .Automatic => if dims.isSome then Colours.mkColourful colour_scale else Colours.mkPlain
    { columns := some (columnsFrom gitFeature m)
      header := m.header
      recurse := dir_action.recurse_options
      filter := filter
      xattr := xattrEnabled && m.extended
      colours := colours }
  let bareDetails : Colours → Details := fun colours =>
    { columns := none
      header := false
      recurse := dir_action.recurse_options
      filter := filter
      xattr := false
      colours := colours }
  let other_options_scan : View :=
    match termWidthDeduce columnsEnv dims with
    | some width =>
      let colours :=
        match term_colours with
        | .Always => Colours.mkColourful colour_scale
        | .Never => Colours.mkPlain
        | .Automatic => Colours.mkColourful colour_scale
      if m.oneline then View.Lines { colours := colours }
      else if m.tree then View.Details (bareDetails colours)
      else View.Grid { across := m.across, console_width := width, colours := colours }
    | none =>
      let colours :=
        match term_colours with
        | .Always => Colours.mkColourful colour_scale
        | .Never => Colours.mkPlain
        | .Automatic => Colours.mkPlain
      if m.tree then View.Details (bareDetails colours)
      else View.Lines { colours := colours }
  if m.long then
    if m.grid then
      match other_options_scan with
      | View.Grid g => View.GridDetails { grid := g, details := longDetails }
      | v => v
    else View.Details longDetails
  else other_options_scan

/-! ## The traversal controller (src/exa.rs, src/bin/main.rs)

The filesystem is embedded as a rose tree of already-`stat`-ed entries: an
`FNode` couples a `File` with its path components, the outcome that
`to_dir` would have (`toDirErr`, src/exa.rs lines 71-74 and 129-132), and
— when it is a directory — what `Dir::files()` would enumerate: the
per-child errors (`childErrs`, reported one fallible stderr line each,
src/exa.rs lines 113-118) and the successfully constructed children.
`to_dir` and enumeration themselves are the absent src/fs modules,
specified in §4.1 to yield partial results plus per-child errors.

Both output streams are fallible: the output sink (stdout) and the stderr
diagnostic stream each carry an optional failure plan — the stream refuses
the write once its budget is exhausted (a reader that closes the pipe),
and every `try!`-ed write in src/exa.rs, to either stream, propagates that
failure. -/

inductive FNode where
  | node (file : File) (path : List String) (toDirErr : Option String)
      (childErrs : List String) (children : List FNode)

def FNode.file : FNode → File
  | .node f _ _ _ _ => f

def FNode.path : FNode → List String
  | .node _ p _ _ _ => p

/-- The diagnostic that `to_dir` on this entry would produce, `none` when
`to_dir` succeeds (src/exa.rs lines 71-74 and 129-132 report the failure
message on stderr and skip the directory). -/
def FNode.toDirErr : FNode → Option String
  | .node _ _ te _ _ => te

/-- The per-child enumeration failures of `Dir::files()` (src/exa.rs lines
113-118: each is reported on stderr; the remaining children still render). -/
def FNode.childErrs : FNode → List String
  | .node _ _ _ ce _ => ce

def FNode.children : FNode → List FNode
  | .node _ _ _ _ c => c

/-- `FileFilter::filter_child_files`: called at src/exa.rs line 120 but
defined in src/options/filter.rs, which is absent from the sources.
Modelled from the spec: children enumerated from a directory are
hidden-filtered — "removes entries whose name begins with `.` unless
`show_hidden` is set" — exactly the behaviour of the legacy
`FileFilter::filter_files` (src/options.rs lines 218-222), lifted to tree
nodes. -/
def FileFilter.filter_child_nodes (ff : FileFilter) (files : List FNode) : List FNode :=
  if ff.show_invisibles = false then files.filter (fun f => !f.file.is_dotfile) else files

/-- `FileFilter::filter_argument_files`: called at src/exa.rs line 90 but
defined in the absent src/options/filter.rs. Modelled from the spec:
"entries passed explicitly as command-line arguments are never
hidden-filtered", so the argument batch passes through unchanged. -/
def FileFilter.filter_argument_nodes (_ff : FileFilter) (files : List FNode) : List FNode :=
  files

/-- `FileFilter::sort_files` (src/options.rs lines 225-236) applied to the
children of a directory, lifted to tree nodes through the `file`
projection. -/
def FileFilter.sort_nodes (ff : FileFilter) (files : List FNode) : List FNode :=
  let files := sortByStable (fun a b => ff.compare_files a.file b.file) files
  let files := if ff.reverse then files.reverse else files
  if ff.list_dirs_first then
    sortByStable (fun a b => boolCmp b.file.is_directory a.file.is_directory) files
  else files

/-- One unit of output written to the sink: the blank separator line
(src/exa.rs line 105), a directory heading (line 109), or one file line as
the Lines strategy renders it (src/output/lines.rs; the name per line). -/
inductive Token where
  | blank
  | heading (path : List String)
  | fileLine (name : String)
deriving DecidableEq, Repr

/-- `std::io::ErrorKind`, restricted to the kinds the program inspects. -/
inductive ErrorKind where
  | brokenPipe
  | notFound
  | permissionDenied
  | writeZero
  | otherKind
deriving DecidableEq, Repr

structure IOErr where
  kind : ErrorKind
  msg : String
deriving DecidableEq, Repr

/-- The output sink: the writes so far, plus an optional failure plan — the
sink refuses the write once `failAfter` many writes have happened (a reader
that closes the pipe after N writes), always yielding the same error value
`failErr`. -/
structure Sink where
  out : List Token
  failAfter : Option Nat
  failErr : IOErr
deriving DecidableEq, Repr

def Sink.write (s : Sink) (t : Token) : Except IOErr Sink :=
  match s.failAfter with
  | some 0 => .error s.failErr
  | some (n + 1) => .ok { s with out := s.out ++ [t], failAfter := some n }
  | none => .ok { s with out := s.out ++ [t] }

/-- The stderr diagnostic stream, as fallible as the sink: every
`try!(writeln!(stderr(), ..))` of src/exa.rs (lines 67, 73, 116, 131) can
fail, and its failure unwinds the traversal like any other write error. -/
structure ErrSink where
  out : List String
  failAfter : Option Nat
  failErr : IOErr
deriving DecidableEq, Repr

def ErrSink.write (es : ErrSink) (m : String) : Except IOErr ErrSink :=
  match es.failAfter with
  | some 0 => .error es.failErr
  | some (n + 1) => .ok { es with out := es.out ++ [m], failAfter := some n }
  | none => .ok { es with out := es.out ++ [m] }

/-- The two output streams the controller writes to: the output sink
(`self.writer`, stdout) and the stderr diagnostic stream. -/
structure Streams where
  sink : Sink
  diag : ErrSink
deriving DecidableEq, Repr

/-- Rust's `try!`: stop at the first error, propagating it unchanged,
otherwise continue with the successful value. -/
def exSeq (r : Except IOErr α) (k : α → Except IOErr β) : Except IOErr β :=
  match r with
  | .error e => .error e
  | .ok s => k s

/-- The Lines strategy body (src/output/lines.rs): one write per file, each
write error propagated unchanged. -/
def writeLines : Sink → List FNode → Except IOErr Sink
  | s, [] => .ok s
  | s, f :: fs => exSeq (s.write (.fileLine f.file.name)) (fun s' => writeLines s' fs)

/-- `Exa::print_files` (src/exa.rs lines 150-162): render through the
active view when the batch is non-empty, otherwise write nothing. The view
is modelled by the Lines strategy, the only render strategy whose source is
present; all strategies share the contract of §4.5 (each entry appears,
sink errors propagate unchanged, nothing is written to stderr). -/
def print_files (s : Sink) (files : List FNode) : Except IOErr Sink :=
  if files.isEmpty then .ok s else writeLines s files

/-- A run of `try!(writeln!(stderr(), ..))` calls, one per diagnostic, each
able to fail (src/exa.rs lines 67, 73, 116, 131). -/
def writeDiags : ErrSink → List String → Except IOErr ErrSink
  | es, [] => .ok es
  | es, m :: ms => exSeq (es.write m) (fun es' => writeDiags es' ms)

/-- A `try!`-ed write to the output sink, the diagnostic stream untouched. -/
def Streams.writeOut (st : Streams) (t : Token) : Except IOErr Streams :=
  match st.sink.write t with
  | .error e => .error e
  | .ok s => .ok { st with sink := s }

/-- A run of `try!`-ed diagnostic writes, the output sink untouched. -/
def Streams.writeDiagList (st : Streams) (ms : List String) : Except IOErr Streams :=
  match writeDiags st.diag ms with
  | .error e => .error e
  | .ok d => .ok { st with diag := d }

/-- `print_files` through the streams: render strategies write only to the
output sink. -/
def Streams.printFiles (st : Streams) (files : List FNode) : Except IOErr Streams :=
  match print_files st.sink files with
  | .error e => .error e
  | .ok s => .ok { st with sink := s }

/-- The options the traversal controller reads (src/exa.rs). -/
structure TravOpts where
  filter : FileFilter
  dir_action : DirAction
deriving DecidableEq, Repr

/-- `Exa::print_dirs` (src/exa.rs lines 96-145): gap, heading, enumeration
(each per-child error is one fallible stderr write, the successes become
`children`), filter + sort, then either descend — reporting failed
`to_dir` conversions on stderr before rendering, exactly as the source
loop at lines 127-133 does — or just render. The `fuel` argument bounds
the recursion depth so the definition is structural; the source recursion
terminates because child directories are strict subtrees, and every
theorem below either holds for all fuel or instantiates it above the tree
height. When fuel runs out the remaining work is skipped with the streams
returned unchanged. -/
def printDirs (o : TravOpts) : Nat → List FNode → Bool → Bool → Streams → Except IOErr Streams
  | _, [], _, _, st => .ok st
  | 0, _ :: _, _, _, st => .ok st
  | fuel + 1, dir :: rest, first, isOnlyDir, st =>
    exSeq (if first then Except.ok st else st.writeOut .blank) fun st1 =>
    exSeq (if !isOnlyDir then st1.writeOut (.heading dir.path) else Except.ok st1) fun st2 =>
    exSeq (st2.writeDiagList dir.childErrs) fun st3 =>
      let children := o.filter.sort_nodes (o.filter.filter_child_nodes dir.children)
      match o.dir_action.recurse_options with
      | some ro =>
        if !ro.tree && !ro.is_too_deep (dirDepth dir.path) then
          let dirCandidates := children.filter (fun f => f.file.is_directory)
          exSeq (st3.writeDiagList (dirCandidates.filterMap FNode.toDirErr)) fun st4 =>
            let child_dirs := dirCandidates.filter (fun f => f.toDirErr.isNone)
            exSeq (st4.printFiles children) fun st5 =>
            exSeq (printDirs o fuel child_dirs false false st5) fun st6 =>
            printDirs o fuel rest false isOnlyDir st6
        else
          exSeq (st3.printFiles children) fun st4 =>
          printDirs o fuel rest false isOnlyDir st4
      | none =>
        exSeq (st3.printFiles children) fun st4 =>
        printDirs o fuel rest false isOnlyDir st4

/-- The outcome of resolving one command-line path with `File::from_path`
(src/exa.rs lines 64-81): either a per-path error — which costs one
fallible write to the stderr diagnostic stream (line 67) — or a resolved
entry (whose `toDirErr`, when it is a directory to descend, is the line 73
diagnostic). -/
inductive Resolved where
  | err (msg : String)
  | ok (n : FNode)

/-- The stderr diagnostics the argument loop of `Exa::run` writes, in
argument order (src/exa.rs lines 64-81): resolution failures (line 67) and
`to_dir` failures of directories to descend (line 73). -/
def argDiags (o : TravOpts) (args : List Resolved) : List String :=
  args.filterMap fun r =>
    match r with
    | .err m => some m
    | .ok n =>
      if n.file.is_directory && !o.dir_action.treat_dirs_as_files then n.toDirErr
      else none

/-- `Exa::run` (src/exa.rs lines 60-94): resolve the paths — reporting
per-path and `to_dir` failures on stderr — split the rest into the file
batch and the directory batch, compute the heading/separator flags, filter
the argument batch, print it, then print the directories. -/
def runExa (o : TravOpts) (fuel : Nat) (args : List Resolved) (st : Streams) :
    Except IOErr Streams :=
  let oks := args.filterMap (fun r => match r with | .ok n => some n | .err _ => none)
  let dirs := if o.dir_action.treat_dirs_as_files then []
              else (oks.filter (fun n => n.file.is_directory)).filter
                (fun n => n.toDirErr.isNone)
  let files := if o.dir_action.treat_dirs_as_files then oks
               else oks.filter (fun n => !n.file.is_directory)
  let no_files := files.length == 1
  let is_only_dir := dirs.length == 1 && no_files
  exSeq (st.writeDiagList (argDiags o args)) fun st1 =>
    let files := o.filter.filter_argument_nodes files
    exSeq (st1.printFiles files) fun st2 =>
      printDirs o fuel dirs no_files is_only_dir st2

/-- The top-level error handling of `main` (src/bin/main.rs lines 10-19):
a `BrokenPipe` run error exits 0, any other run error is reported and exits
1, a successful run exits 0. -/
def mainExit (r : Except IOErr Unit) : Nat :=
  match r with
  | .ok _ => 0
  | .error e =>
    match e.kind with
    | .brokenPipe => 0
    | _ => 1

/-! ## Helper lemmas -/

lemma charCmp_self (c : Char) : charCmp c c = .eq := by
  simp [charCmp]

lemma charListCmp_self (l : List Char) : charListCmp l l = .eq := by
  induction l with
  | nil => rfl
  | cons a as ih => simp [charListCmp, charCmp_self, ih]

lemma optStrCmp_self (x : Option String) : optStrCmp x x = .eq := by
  cases x with
  | none => rfl
  | some s => simp [optStrCmp, strCmp, charListCmp_self]

/-- Reassigning `reverse` does not change the comparator: `compare_files`
reads only `sort_field`. -/
lemma compare_files_reverse_irrelevant (ff : FileFilter) :
    FileFilter.compare_files { ff with reverse := false } = ff.compare_files := rfl

/-- A directory never sinks past anything under the directories-first
comparator, so stable insertion puts it at the front. -/
lemma insertBy_dirs_front (a : File) (ha : a.is_directory = true) (l : List File) :
    insertBy (fun x y => boolCmp y.is_directory x.is_directory) a l = a :: l := by
  cases l with
  | nil => rfl
  | cons b bs => cases hb : b.is_directory <;> simp [insertBy, boolCmp, ha, hb]

/-- A non-directory sinks past every directory under the directories-first
comparator. -/
lemma insertBy_file_past_dirs (a : File) (ha : a.is_directory = false)
    (ds fs : List File) (hds : ∀ d ∈ ds, d.is_directory = true) :
    insertBy (fun x y => boolCmp y.is_directory x.is_directory) a (ds ++ fs)
      = ds ++ insertBy (fun x y => boolCmp y.is_directory x.is_directory) a fs := by
  induction ds with
  | nil => rfl
  | cons d ds ih =>
    have hd : d.is_directory = true := hds d (by simp)
    have hcmp : boolCmp d.is_directory a.is_directory = .gt := by
      rw [ha, hd]; rfl
    simp only [List.cons_append, insertBy, hcmp, List.append_eq]
    rw [ih (fun x hx => hds x (by simp [hx]))]

/-- A non-directory stops in front of the first non-directory under the
directories-first comparator. -/
lemma insertBy_file_front (a : File) (ha : a.is_directory = false) (fs : List File)
    (hfs : ∀ f ∈ fs, f.is_directory = false) :
    insertBy (fun x y => boolCmp y.is_directory x.is_directory) a fs = a :: fs := by
  cases fs with
  | nil => rfl
  | cons f fs' =>
    have hf : f.is_directory = false := hfs f (by simp)
    simp [insertBy, boolCmp, ha, hf]

/-- The directories-first pass is exactly the stable partition into the
directory sublist followed by the non-directory sublist. -/
lemma dirsFirstPass_eq_filter (l : List File) :
    dirsFirstPass l
      = l.filter (fun f => f.is_directory) ++ l.filter (fun f => !f.is_directory) := by
  induction l with
  | nil => rfl
  | cons a l ih =>
    show insertBy (fun x y => boolCmp y.is_directory x.is_directory) a (dirsFirstPass l) = _
    rw [ih]
    cases ha : a.is_directory with
    | true =>
      rw [insertBy_dirs_front a ha]
      simp [List.filter_cons, ha]
    | false =>
      rw [insertBy_file_past_dirs a ha _ _
            (fun d hd => by simpa using (List.mem_filter.mp hd).2),
          insertBy_file_front a ha _
            (fun f hf => by simpa using (List.mem_filter.mp hf).2)]
      simp [List.filter_cons, ha]

/-! ## Claims -/

/-- C10: when recursion is configured without a maximum depth
(`max_depth = None`), `is_too_deep` returns `false` at every depth, so the
non-tree descent condition of the controller is never stopped by the depth
check. -/
theorem C10_no_max_depth_never_too_deep :
    (∀ (tree : Bool) (depth : Nat),
        (RecurseOptions.mk tree none).is_too_deep depth = false)
    ∧ (∀ path : List String,
        descends { tree := false, max_depth := none } path = true) := by
  exact ⟨fun _ _ => rfl, fun _ => rfl⟩

/-- C9: the directories-first pass is an idempotent, order-preserving
stable partition — one application yields the directory entries (in their
prior relative order) followed by the non-directory entries (in their prior
relative order), and a second application changes nothing. -/
theorem C9_dirs_first_stable_partition :
    ∀ l : List File,
      dirsFirstPass l
          = l.filter (fun f => f.is_directory) ++ l.filter (fun f => !f.is_directory)
      ∧ dirsFirstPass (dirsFirstPass l) = dirsFirstPass l := by
  intro l
  refine ⟨dirsFirstPass_eq_filter l, ?_⟩
  rw [dirsFirstPass_eq_filter l, dirsFirstPass_eq_filter]
  have hA : (l.filter (fun f => f.is_directory)).filter (fun f => f.is_directory)
      = l.filter (fun f => f.is_directory) :=
    List.filter_eq_self.mpr (fun a ha => (List.mem_filter.mp ha).2)
  have hB : (l.filter (fun f => !f.is_directory)).filter (fun f => f.is_directory) = [] := by
    rw [List.filter_eq_nil_iff]
    intro a ha
    have := (List.mem_filter.mp ha).2
    simp only [Bool.not_eq_true'] at this
    simp [this]
  have hC : (l.filter (fun f => f.is_directory)).filter (fun f => !f.is_directory) = [] := by
    rw [List.filter_eq_nil_iff]
    intro a ha
    have := (List.mem_filter.mp ha).2
    simp [this]
  have hD : (l.filter (fun f => !f.is_directory)).filter (fun f => !f.is_directory)
      = l.filter (fun f => !f.is_directory) :=
    List.filter_eq_self.mpr (fun a ha => (List.mem_filter.mp ha).2)
  rw [List.filter_append, List.filter_append, hA, hB, hC, hD, List.append_nil,
    List.nil_append]

/-- C1 (amended): with the reverse flag set and the directories-first flag
off, `sort_files` equals the full reversal of `sort_files` with reverse
unset — the reversal is applied to the whole sequence after the stable
primary sort. (With directories-first on, the claim fails: the
directories-first pass runs after the reversal, see the counterexample.) -/
theorem C1_reverse_is_post_sort_reversal (ff : FileFilter) (files : List File)
    (hrev : ff.reverse = true) (hdirs : ff.list_dirs_first = false) :
    ff.sort_files files
      = (FileFilter.sort_files { ff with reverse := false } files).reverse := by
  simp [FileFilter.sort_files, hrev, hdirs]
  rfl

/-- Witness for C1: instantiating the amended claim at a two-element list
under the name key, with both hypotheses discharged concretely. -/
theorem C1_reverse_is_post_sort_reversal_witness :
    (FileFilter.mk false true false .Name).sort_files
        [⟨"b", none, ⟨0, 0, 0, 0, 0⟩, false⟩, ⟨"a", none, ⟨0, 0, 0, 0, 0⟩, false⟩]
      = (FileFilter.sort_files { (FileFilter.mk false true false .Name) with reverse := false }
          [⟨"b", none, ⟨0, 0, 0, 0, 0⟩, false⟩, ⟨"a", none, ⟨0, 0, 0, 0, 0⟩, false⟩]).reverse :=
  C1_reverse_is_post_sort_reversal _ _ rfl rfl

/-- Counterexample for C1 as frozen: with the directories-first flag also
set, `sort_files` with reverse set is not the reversal of `sort_files` with
reverse unset — the directories-first pass (src/options.rs lines 232-235)
runs after the reversal, so a directory/file pair under the Unsorted key
comes out as [dir, file] on the left but [file, dir] on the right. -/
theorem C1_reverse_cex :
    ¬ ((FileFilter.mk true true false .Unsorted).sort_files
          [⟨"a", none, ⟨0, 0, 0, 0, 0⟩, true⟩, ⟨"b", none, ⟨0, 0, 0, 0, 0⟩, false⟩]
        = ((FileFilter.mk true false false .Unsorted).sort_files
          [⟨"a", none, ⟨0, 0, 0, 0, 0⟩, true⟩, ⟨"b", none, ⟨0, 0, 0, 0, 0⟩, false⟩]).reverse) := by
  decide

/-- C5: under the Extension key, entries whose extensions compare equal are
ordered by natural-order comparison of their names; natural order compares
embedded digit runs numerically, so under the Name key "file2" sorts before
"file10", in contrast to plain lexical ordering where "file10" < "file2". -/
theorem C5_extension_ties_and_natural_order :
    (∀ (ff : FileFilter) (a b : File), ff.sort_field = .Extension → a.ext = b.ext →
        ff.compare_files a b = natordCompare a.name b.name)
    ∧ (FileFilter.mk false false false .Name).compare_files
        ⟨"file2", none, ⟨0, 0, 0, 0, 0⟩, false⟩ ⟨"file10", none, ⟨0, 0, 0, 0, 0⟩, false⟩ = .lt
    ∧ natordCompare "file2" "file10" = .lt
    ∧ strCmp "file10" "file2" = .lt := by
  refine ⟨?_, by decide, by decide, by decide⟩
  intro ff a b hsf hext
  simp only [FileFilter.compare_files, hsf, hext, optStrCmp_self]

/-- Witness for C5: the Extension-tie fallback instantiated at two concrete
entries with the same extension, hypotheses discharged concretely; the
resulting name comparison is the numeric digit-run one. -/
theorem C5_extension_ties_witness :
    (FileFilter.mk false false false .Extension).compare_files
        ⟨"a2", some "txt", ⟨0, 0, 0, 0, 0⟩, false⟩ ⟨"a10", some "txt", ⟨0, 0, 0, 0, 0⟩, false⟩
      = natordCompare "a2" "a10"
    ∧ natordCompare "a2" "a10" = .lt :=
  ⟨C5_extension_ties_and_natural_order.1 _ _ _ rfl rfl, by decide⟩

/-! ### Concrete fixtures for the traversal claims -/

def meta0 : Metadata := ⟨0, 0, 0, 0, 0⟩

/-- Default filter: hidden off, no reverse, no dirs-first, name sort. -/
def defaultFilter : FileFilter := ⟨false, false, false, .Name⟩

def sink0 : Sink := { out := [], failAfter := none, failErr := ⟨.otherKind, ""⟩ }

/-- A diagnostic stream that never refuses a write. -/
def diag0 : ErrSink := { out := [], failAfter := none, failErr := ⟨.otherKind, ""⟩ }

def streams0 : Streams := ⟨sink0, diag0⟩

/-- A three-level tree: directory `a` containing directory `sub` containing
plain file `leaf`. -/
def subTree : FNode :=
  .node ⟨"sub", none, meta0, true⟩ ["a", "sub"] none []
    [.node ⟨"leaf", none, meta0, false⟩ ["a", "sub", "leaf"] none [] []]

def topA : FNode := .node ⟨"a", none, meta0, true⟩ ["a"] none [] [subTree]

/-- C3 (amended): with recursion enabled, tree sub-mode off and a maximum
depth d, the controller descends from a rendered directory into its child
directories iff the directory's computed depth (non-current-directory path
components + 1) is strictly less than d (`is_too_deep` stops at
`d <= depth`, not `d < depth`); consequently with `max_depth = 1` the top
directory's immediate children are rendered but no subdirectory's contents
are: on the three-level tree a/sub/leaf only `sub` is printed. -/
theorem C3_depth_strictly_less :
    (∀ (d : Nat) (path : List String),
        descends ⟨false, some d⟩ path = decide (dirDepth path < d))
    ∧ printDirs ⟨defaultFilter, .Recurse ⟨false, some 1⟩⟩ 4 [topA] true true streams0
        = .ok { sink := { out := [.fileLine "sub"], failAfter := none,
                          failErr := ⟨.otherKind, ""⟩ },
                diag := diag0 } := by
  constructor
  · intro d path
    simp only [descends, RecurseOptions.is_too_deep, Bool.not_false, Bool.true_and]
    rw [← decide_not]
    exact decide_eq_decide.mpr (by omega)
  · rfl

/-- Counterexample for C3 as frozen: the claim's descent condition is
"depth does not exceed d". At `max_depth = 2` the directory `a` has
computed depth 2, which does not exceed 2, yet the controller does not
descend: the condition of src/exa.rs line 125 is false, and the rendered
output stops at `a`'s immediate children (no blank, heading or content for
`sub` follows). -/
theorem C3_depth_cex :
    dirDepth ["a"] ≤ 2
    ∧ descends ⟨false, some 2⟩ ["a"] = false
    ∧ printDirs ⟨defaultFilter, .Recurse ⟨false, some 2⟩⟩ 4 [topA] true true streams0
        = .ok { sink := { out := [.fileLine "sub"], failAfter := none,
                          failErr := ⟨.otherKind, ""⟩ },
                diag := diag0 } := by
  exact ⟨by decide, by decide, by rfl⟩

/-- Directory `d` with the single plain child `c`. -/
def dOnly : FNode :=
  .node ⟨"d", none, meta0, true⟩ ["d"] none []
    [.node ⟨"c", none, meta0, false⟩ ["d", "c"] none [] []]

/-- A plain file argument `f`. -/
def fOnly : FNode := .node ⟨"f", none, meta0, false⟩ ["f"] none [] []

/-- C2: evaluation of the controller at the failing inputs. `Exa::run`
computes `no_files = (files.len() == 1)` (src/exa.rs line 87), not
`files.is_empty()`, so: (1) with a single directory named and zero files,
the run writes a blank line before the first (and only) block and prints
the `d:` heading, both of which the claim forbids; (2) with exactly one
file and one directory named, the run omits both the separator between the
file block and the directory block and the directory heading, both of
which the claim requires. The code's own comments (src/exa.rs lines 83-85
and 99-100) describe the claimed behaviour, so the code is the slip. -/
theorem C2_separator_heading_eval :
    runExa ⟨defaultFilter, .List⟩ 4 [.ok dOnly] streams0
      = .ok { sink := { out := [.blank, .heading ["d"], .fileLine "c"],
                        failAfter := none, failErr := ⟨.otherKind, ""⟩ },
              diag := diag0 }
    ∧ runExa ⟨defaultFilter, .List⟩ 4 [.ok fOnly, .ok dOnly] streams0
      = .ok { sink := { out := [.fileLine "f", .fileLine "c"],
                        failAfter := none, failErr := ⟨.otherKind, ""⟩ },
              diag := diag0 } := by
  exact ⟨rfl, rfl⟩

/-- The dotfile entry `.hidden`, named explicitly on the command line. -/
def hiddenArg : FNode := .node ⟨".hidden", none, meta0, false⟩ [".hidden"] none [] []

/-- Directory `d` containing the dotfile child `.hidden_child` and the
plain child `b`. -/
def dirWithHiddenChild : FNode :=
  .node ⟨"d", none, meta0, true⟩ ["d"] none []
    [.node ⟨".hidden_child", none, meta0, false⟩ ["d", ".hidden_child"] none [] [],
     .node ⟨"b", none, meta0, false⟩ ["d", "b"] none [] []]

/-- C4: hidden-name filtering is asymmetric. With show-hidden off, the
child filter removes every dotfile before rendering, the argument filter
never hidden-filters, and on the spec's own scenario (explicit argument
`.hidden` plus a directory containing `.hidden_child`) the run renders
`.hidden` but not `.hidden_child`. -/
theorem C4_hidden_filter_asymmetry :
    (∀ (ff : FileFilter) (ns : List FNode), ff.show_invisibles = false →
        ∀ n ∈ ff.filter_child_nodes ns, n.file.is_dotfile = false)
    ∧ (∀ (ff : FileFilter) (files : List FNode), ff.filter_argument_nodes files = files)
    ∧ runExa ⟨defaultFilter, .List⟩ 4 [.ok hiddenArg, .ok dirWithHiddenChild] streams0
        = .ok { sink := { out := [.fileLine ".hidden", .fileLine "b"],
                          failAfter := none, failErr := ⟨.otherKind, ""⟩ },
                diag := diag0 } := by
  refine ⟨?_, fun _ _ => rfl, rfl⟩
  intro ff ns hsh n hn
  rw [FileFilter.filter_child_nodes, if_pos hsh] at hn
  have := (List.mem_filter.mp hn).2
  simpa using this

/-- Witness for C4: the child-filter conjunct instantiated at a concrete
one-element list, the show-hidden and membership hypotheses discharged
concretely. -/
theorem C4_hidden_filter_asymmetry_witness :
    (FNode.node ⟨"b", none, meta0, false⟩ ["b"] none [] []).file.is_dotfile = false :=
  C4_hidden_filter_asymmetry.1 defaultFilter
    [FNode.node ⟨"b", none, meta0, false⟩ ["b"] none [] []] rfl _ (List.Mem.head _)

/-! ### Write-error propagation (towards C7)

`presErr s r` says the outcome `r` of a sink-writing stage run on sink `s`
either succeeded with the sink's error value untouched, or failed with
exactly the sink's own error value — i.e. the only error such a stage can
produce is the sink's, unchanged. `goodOk s r` says the stage succeeded,
given a sink that never refuses a write. `presErrE`/`goodOkE` are the same
notions for the stderr diagnostic stream, and `presErr2`/`goodOk2` for the
two streams together: any error a traversal stage produces is one of the
two streams' own error values, propagated unchanged. -/

def presErr (s : Sink) : Except IOErr Sink → Prop
  | .ok s' => s'.failErr = s.failErr
  | .error e => e = s.failErr

def goodOk (s : Sink) : Except IOErr Sink → Prop
  | .ok s' => s'.failAfter = none ∧ s'.failErr = s.failErr
  | .error _ => False

lemma presErr_write (s : Sink) (t : Token) : presErr s (s.write t) := by
  cases hfa : s.failAfter with
  | none => simp [Sink.write, hfa, presErr]
  | some n => cases n <;> simp [Sink.write, hfa, presErr]

lemma goodOk_write (s : Sink) (t : Token) (h : s.failAfter = none) :
    goodOk s (s.write t) := by
  simp [Sink.write, h, goodOk]

lemma presErr_seq {s : Sink} {r : Except IOErr Sink} {k : Sink → Except IOErr Sink}
    (hr : presErr s r) (hk : ∀ s1, s1.failErr = s.failErr → presErr s (k s1)) :
    presErr s (exSeq r k) := by
  cases r with
  | error e => simpa [exSeq, presErr] using hr
  | ok s1 => exact hk s1 hr

lemma goodOk_seq {s : Sink} {r : Except IOErr Sink} {k : Sink → Except IOErr Sink}
    (hr : goodOk s r)
    (hk : ∀ s1, s1.failAfter = none → s1.failErr = s.failErr → goodOk s (k s1)) :
    goodOk s (exSeq r k) := by
  cases r with
  | error e => exact absurd hr (by simp [goodOk])
  | ok s1 => exact hk s1 hr.1 hr.2

/-- `presErr` only depends on the sink's error value. -/
lemma presErr_congr {s s1 : Sink} {r : Except IOErr Sink}
    (h : s1.failErr = s.failErr) (hr : presErr s1 r) : presErr s r := by
  cases r with
  | ok s' => exact (show s'.failErr = s1.failErr from hr).trans h
  | error e => exact (show e = s1.failErr from hr).trans h

/-- `goodOk` only depends on the sink's error value. -/
lemma goodOk_congr {s s1 : Sink} {r : Except IOErr Sink}
    (h : s1.failErr = s.failErr) (hr : goodOk s1 r) : goodOk s r := by
  cases r with
  | ok s' => exact ⟨hr.1, hr.2.trans h⟩
  | error e => exact absurd hr (by simp [goodOk])

lemma presErr_writeLines : ∀ (fs : List FNode) (s : Sink), presErr s (writeLines s fs)
  | [], s => rfl
  | f :: fs, s => by
    rw [writeLines]
    exact presErr_seq (presErr_write s _)
      (fun s1 h1 => presErr_congr h1 (presErr_writeLines fs s1))

lemma goodOk_writeLines : ∀ (fs : List FNode) (s : Sink), s.failAfter = none →
    goodOk s (writeLines s fs)
  | [], s, h => ⟨h, rfl⟩
  | f :: fs, s, h => by
    rw [writeLines]
    exact goodOk_seq (goodOk_write s _ h)
      (fun s1 hfa h1 => goodOk_congr h1 (goodOk_writeLines fs s1 hfa))

lemma presErr_print_files (s : Sink) (fs : List FNode) : presErr s (print_files s fs) := by
  rw [print_files]
  cases fs.isEmpty with
  | true => exact rfl
  | false => exact presErr_writeLines fs s

lemma goodOk_print_files (s : Sink) (fs : List FNode) (h : s.failAfter = none) :
    goodOk s (print_files s fs) := by
  rw [print_files]
  cases fs.isEmpty with
  | true => exact ⟨h, rfl⟩
  | false => exact goodOk_writeLines fs s h

def presErrE (es : ErrSink) : Except IOErr ErrSink → Prop
  | .ok es' => es'.failErr = es.failErr
  | .error e => e = es.failErr

def goodOkE (es : ErrSink) : Except IOErr ErrSink → Prop
  | .ok es' => es'.failAfter = none ∧ es'.failErr = es.failErr
  | .error _ => False

lemma presErrE_write (es : ErrSink) (m : String) : presErrE es (es.write m) := by
  cases hfa : es.failAfter with
  | none => simp [ErrSink.write, hfa, presErrE]
  | some n => cases n <;> simp [ErrSink.write, hfa, presErrE]

lemma goodOkE_write (es : ErrSink) (m : String) (h : es.failAfter = none) :
    goodOkE es (es.write m) := by
  simp [ErrSink.write, h, goodOkE]

lemma presErrE_seq {es : ErrSink} {r : Except IOErr ErrSink}
    {k : ErrSink → Except IOErr ErrSink}
    (hr : presErrE es r) (hk : ∀ es1, es1.failErr = es.failErr → presErrE es (k es1)) :
    presErrE es (exSeq r k) := by
  cases r with
  | error e => exact hr
  | ok es1 => exact hk es1 hr

lemma goodOkE_seq {es : ErrSink} {r : Except IOErr ErrSink}
    {k : ErrSink → Except IOErr ErrSink}
    (hr : goodOkE es r)
    (hk : ∀ es1, es1.failAfter = none → es1.failErr = es.failErr → goodOkE es (k es1)) :
    goodOkE es (exSeq r k) := by
  cases r with
  | error e => exact absurd hr (by simp [goodOkE])
  | ok es1 => exact hk es1 hr.1 hr.2

lemma presErrE_congr {es es1 : ErrSink} {r : Except IOErr ErrSink}
    (h : es1.failErr = es.failErr) (hr : presErrE es1 r) : presErrE es r := by
  cases r with
  | ok es' => exact (show es'.failErr = es1.failErr from hr).trans h
  | error e => exact (show e = es1.failErr from hr).trans h

lemma goodOkE_congr {es es1 : ErrSink} {r : Except IOErr ErrSink}
    (h : es1.failErr = es.failErr) (hr : goodOkE es1 r) : goodOkE es r := by
  cases r with
  | ok es' => exact ⟨hr.1, hr.2.trans h⟩
  | error e => exact absurd hr (by simp [goodOkE])

lemma presErrE_writeDiags : ∀ (ms : List String) (es : ErrSink),
    presErrE es (writeDiags es ms)
  | [], es => rfl
  | m :: ms, es => by
    rw [writeDiags]
    exact presErrE_seq (presErrE_write es m)
      (fun es1 h1 => presErrE_congr h1 (presErrE_writeDiags ms es1))

lemma goodOkE_writeDiags : ∀ (ms : List String) (es : ErrSink), es.failAfter = none →
    goodOkE es (writeDiags es ms)
  | [], es, h => ⟨h, rfl⟩
  | m :: ms, es, h => by
    rw [writeDiags]
    exact goodOkE_seq (goodOkE_write es m h)
      (fun es1 hfa h1 => goodOkE_congr h1 (goodOkE_writeDiags ms es1 hfa))

def presErr2 (st : Streams) : Except IOErr Streams → Prop
  | .ok st' => st'.sink.failErr = st.sink.failErr ∧ st'.diag.failErr = st.diag.failErr
  | .error e => e = st.sink.failErr ∨ e = st.diag.failErr

def goodOk2 (st : Streams) : Except IOErr Streams → Prop
  | .ok st' => st'.sink.failAfter = none ∧ st'.diag.failAfter = none
      ∧ st'.sink.failErr = st.sink.failErr ∧ st'.diag.failErr = st.diag.failErr
  | .error _ => False

lemma presErr2_seq {st : Streams} {r : Except IOErr Streams}
    {k : Streams → Except IOErr Streams}
    (hr : presErr2 st r)
    (hk : ∀ st1, st1.sink.failErr = st.sink.failErr →
        st1.diag.failErr = st.diag.failErr → presErr2 st (k st1)) :
    presErr2 st (exSeq r k) := by
  cases r with
  | error e => exact hr
  | ok st1 => exact hk st1 hr.1 hr.2

lemma goodOk2_seq {st : Streams} {r : Except IOErr Streams}
    {k : Streams → Except IOErr Streams}
    (hr : goodOk2 st r)
    (hk : ∀ st1, st1.sink.failAfter = none → st1.diag.failAfter = none →
        st1.sink.failErr = st.sink.failErr → st1.diag.failErr = st.diag.failErr →
        goodOk2 st (k st1)) :
    goodOk2 st (exSeq r k) := by
  cases r with
  | error e => exact absurd hr (by simp [goodOk2])
  | ok st1 => exact hk st1 hr.1 hr.2.1 hr.2.2.1 hr.2.2.2

lemma presErr2_congr {st st1 : Streams} {r : Except IOErr Streams}
    (h1 : st1.sink.failErr = st.sink.failErr) (h2 : st1.diag.failErr = st.diag.failErr)
    (hr : presErr2 st1 r) : presErr2 st r := by
  cases r with
  | ok st' => exact ⟨hr.1.trans h1, hr.2.trans h2⟩
  | error e =>
    cases hr with
    | inl hx => exact Or.inl (hx.trans h1)
    | inr hx => exact Or.inr (hx.trans h2)

lemma goodOk2_congr {st st1 : Streams} {r : Except IOErr Streams}
    (h1 : st1.sink.failErr = st.sink.failErr) (h2 : st1.diag.failErr = st.diag.failErr)
    (hr : goodOk2 st1 r) : goodOk2 st r := by
  cases r with
  | ok st' => exact ⟨hr.1, hr.2.1, hr.2.2.1.trans h1, hr.2.2.2.trans h2⟩
  | error e => exact absurd hr (by simp [goodOk2])

lemma presErr2_writeOut (st : Streams) (t : Token) : presErr2 st (st.writeOut t) := by
  have h := presErr_write st.sink t
  cases hr : st.sink.write t with
  | ok s =>
    rw [hr] at h
    simp only [Streams.writeOut, hr]
    exact ⟨h, rfl⟩
  | error e =>
    rw [hr] at h
    simp only [Streams.writeOut, hr]
    exact Or.inl h

lemma goodOk2_writeOut (st : Streams) (t : Token)
    (hs : st.sink.failAfter = none) (hd : st.diag.failAfter = none) :
    goodOk2 st (st.writeOut t) := by
  have h := goodOk_write st.sink t hs
  cases hr : st.sink.write t with
  | ok s =>
    rw [hr] at h
    simp only [Streams.writeOut, hr]
    exact ⟨h.1, hd, h.2, rfl⟩
  | error e =>
    rw [hr] at h
    exact absurd h (by simp [goodOk])

lemma presErr2_writeDiagList (st : Streams) (ms : List String) :
    presErr2 st (st.writeDiagList ms) := by
  have h := presErrE_writeDiags ms st.diag
  cases hr : writeDiags st.diag ms with
  | ok d =>
    rw [hr] at h
    simp only [Streams.writeDiagList, hr]
    exact ⟨rfl, h⟩
  | error e =>
    rw [hr] at h
    simp only [Streams.writeDiagList, hr]
    exact Or.inr h

lemma goodOk2_writeDiagList (st : Streams) (ms : List String)
    (hs : st.sink.failAfter = none) (hd : st.diag.failAfter = none) :
    goodOk2 st (st.writeDiagList ms) := by
  have h := goodOkE_writeDiags ms st.diag hd
  cases hr : writeDiags st.diag ms with
  | ok d =>
    rw [hr] at h
    simp only [Streams.writeDiagList, hr]
    exact ⟨hs, h.1, rfl, h.2⟩
  | error e =>
    rw [hr] at h
    exact absurd h (by simp [goodOkE])

lemma presErr2_printFiles (st : Streams) (fs : List FNode) :
    presErr2 st (st.printFiles fs) := by
  have h := presErr_print_files st.sink fs
  cases hr : print_files st.sink fs with
  | ok s =>
    rw [hr] at h
    simp only [Streams.printFiles, hr]
    exact ⟨h, rfl⟩
  | error e =>
    rw [hr] at h
    simp only [Streams.printFiles, hr]
    exact Or.inl h

lemma goodOk2_printFiles (st : Streams) (fs : List FNode)
    (hs : st.sink.failAfter = none) (hd : st.diag.failAfter = none) :
    goodOk2 st (st.printFiles fs) := by
  have h := goodOk_print_files st.sink fs hs
  cases hr : print_files st.sink fs with
  | ok s =>
    rw [hr] at h
    simp only [Streams.printFiles, hr]
    exact ⟨h.1, hd, h.2, rfl⟩
  | error e =>
    rw [hr] at h
    exact absurd h (by simp [goodOk])

lemma presErr2_ite_writeOut (b : Bool) (st : Streams) (t : Token) :
    presErr2 st (if b then Except.ok st else st.writeOut t) := by
  cases b with
  | true => exact ⟨rfl, rfl⟩
  | false => exact presErr2_writeOut st t

lemma goodOk2_ite_writeOut (b : Bool) (st : Streams) (t : Token)
    (hs : st.sink.failAfter = none) (hd : st.diag.failAfter = none) :
    goodOk2 st (if b then Except.ok st else st.writeOut t) := by
  cases b with
  | true => exact ⟨hs, hd, rfl, rfl⟩
  | false => exact goodOk2_writeOut st t hs hd

lemma presErr2_writeOut_ite (b : Bool) (st : Streams) (t : Token) :
    presErr2 st (if b then st.writeOut t else Except.ok st) := by
  cases b with
  | true => exact presErr2_writeOut st t
  | false => exact ⟨rfl, rfl⟩

lemma goodOk2_writeOut_ite (b : Bool) (st : Streams) (t : Token)
    (hs : st.sink.failAfter = none) (hd : st.diag.failAfter = none) :
    goodOk2 st (if b then st.writeOut t else Except.ok st) := by
  cases b with
  | true => exact goodOk2_writeOut st t hs hd
  | false => exact ⟨hs, hd, rfl, rfl⟩

lemma presErr2_printDirs (o : TravOpts) :
    ∀ (fuel : Nat) (dirs : List FNode) (first isOnlyDir : Bool) (st : Streams),
      presErr2 st (printDirs o fuel dirs first isOnlyDir st) := by
  intro fuel
  induction fuel with
  | zero =>
    intro dirs first isOnlyDir st
    cases dirs with
    | nil => exact ⟨rfl, rfl⟩
    | cons d rest => exact ⟨rfl, rfl⟩
  | succ fuel ih =>
    intro dirs first isOnlyDir st
    cases dirs with
    | nil => exact ⟨rfl, rfl⟩
    | cons dir rest =>
      rw [printDirs]
      refine presErr2_seq (presErr2_ite_writeOut first st .blank) (fun st1 e1 d1 => ?_)
      refine presErr2_seq
        (presErr2_congr e1 d1 (presErr2_writeOut_ite (!isOnlyDir) st1 _))
        (fun st2 e2 d2 => ?_)
      refine presErr2_seq (presErr2_congr e2 d2 (presErr2_writeDiagList st2 _))
        (fun st3 e3 d3 => ?_)
      cases o.dir_action.recurse_options with
      | some ro =>
        dsimp only
        cases (!ro.tree && !ro.is_too_deep (dirDepth dir.path)) with
        | true =>
          refine presErr2_seq (presErr2_congr e3 d3 (presErr2_writeDiagList st3 _))
            (fun st4 e4 d4 => ?_)
          refine presErr2_seq (presErr2_congr e4 d4 (presErr2_printFiles st4 _))
            (fun st5 e5 d5 => ?_)
          refine presErr2_seq (presErr2_congr e5 d5 (ih _ false false st5))
            (fun st6 e6 d6 => ?_)
          exact presErr2_congr e6 d6 (ih rest false isOnlyDir st6)
        | false =>
          refine presErr2_seq (presErr2_congr e3 d3 (presErr2_printFiles st3 _))
            (fun st4 e4 d4 => ?_)
          exact presErr2_congr e4 d4 (ih rest false isOnlyDir st4)
      | none =>
        dsimp only
        refine presErr2_seq (presErr2_congr e3 d3 (presErr2_printFiles st3 _))
          (fun st4 e4 d4 => ?_)
        exact presErr2_congr e4 d4 (ih rest false isOnlyDir st4)

lemma goodOk2_printDirs (o : TravOpts) :
    ∀ (fuel : Nat) (dirs : List FNode) (first isOnlyDir : Bool) (st : Streams),
      st.sink.failAfter = none → st.diag.failAfter = none →
      goodOk2 st (printDirs o fuel dirs first isOnlyDir st) := by
  intro fuel
  induction fuel with
  | zero =>
    intro dirs first isOnlyDir st hs hd
    cases dirs with
    | nil => exact ⟨hs, hd, rfl, rfl⟩
    | cons d rest => exact ⟨hs, hd, rfl, rfl⟩
  | succ fuel ih =>
    intro dirs first isOnlyDir st hs hd
    cases dirs with
    | nil => exact ⟨hs, hd, rfl, rfl⟩
    | cons dir rest =>
      rw [printDirs]
      refine goodOk2_seq (goodOk2_ite_writeOut first st .blank hs hd)
        (fun st1 hs1 hd1 e1 d1 => ?_)
      refine goodOk2_seq
        (goodOk2_congr e1 d1 (goodOk2_writeOut_ite (!isOnlyDir) st1 _ hs1 hd1))
        (fun st2 hs2 hd2 e2 d2 => ?_)
      refine goodOk2_seq (goodOk2_congr e2 d2 (goodOk2_writeDiagList st2 _ hs2 hd2))
        (fun st3 hs3 hd3 e3 d3 => ?_)
      cases o.dir_action.recurse_options with
      | some ro =>
        dsimp only
        cases (!ro.tree && !ro.is_too_deep (dirDepth dir.path)) with
        | true =>
          refine goodOk2_seq (goodOk2_congr e3 d3 (goodOk2_writeDiagList st3 _ hs3 hd3))
            (fun st4 hs4 hd4 e4 d4 => ?_)
          refine goodOk2_seq (goodOk2_congr e4 d4 (goodOk2_printFiles st4 _ hs4 hd4))
            (fun st5 hs5 hd5 e5 d5 => ?_)
          refine goodOk2_seq (goodOk2_congr e5 d5 (ih _ false false st5 hs5 hd5))
            (fun st6 hs6 hd6 e6 d6 => ?_)
          exact goodOk2_congr e6 d6 (ih rest false isOnlyDir st6 hs6 hd6)
        | false =>
          refine goodOk2_seq (goodOk2_congr e3 d3 (goodOk2_printFiles st3 _ hs3 hd3))
            (fun st4 hs4 hd4 e4 d4 => ?_)
          exact goodOk2_congr e4 d4 (ih rest false isOnlyDir st4 hs4 hd4)
      | none =>
        dsimp only
        refine goodOk2_seq (goodOk2_congr e3 d3 (goodOk2_printFiles st3 _ hs3 hd3))
          (fun st4 hs4 hd4 e4 d4 => ?_)
        exact goodOk2_congr e4 d4 (ih rest false isOnlyDir st4 hs4 hd4)

lemma presErr2_runExa (o : TravOpts) (fuel : Nat) (args : List Resolved) (st : Streams) :
    presErr2 st (runExa o fuel args st) := by
  rw [runExa]
  refine presErr2_seq (presErr2_writeDiagList st _) (fun st1 e1 d1 => ?_)
  refine presErr2_seq (presErr2_congr e1 d1 (presErr2_printFiles st1 _))
    (fun st2 e2 d2 => ?_)
  exact presErr2_congr e2 d2 (presErr2_printDirs o fuel _ _ _ st2)

lemma goodOk2_runExa (o : TravOpts) (fuel : Nat) (args : List Resolved) (st : Streams)
    (hs : st.sink.failAfter = none) (hd : st.diag.failAfter = none) :
    goodOk2 st (runExa o fuel args st) := by
  rw [runExa]
  refine goodOk2_seq (goodOk2_writeDiagList st _ hs hd) (fun st1 hs1 hd1 e1 d1 => ?_)
  refine goodOk2_seq (goodOk2_congr e1 d1 (goodOk2_printFiles st1 _ hs1 hd1))
    (fun st2 hs2 hd2 e2 d2 => ?_)
  exact goodOk2_congr e2 d2 (goodOk2_printDirs o fuel _ _ _ st2 hs2 hd2)

/-- A sink that refuses the very first write with a broken-pipe error. -/
def badSink : Sink := { out := [], failAfter := some 0, failErr := ⟨.brokenPipe, "pipe"⟩ }

/-- A diagnostic stream that refuses the very first write. -/
def badDiag : ErrSink :=
  { out := [], failAfter := some 0, failErr := ⟨.otherKind, "stderr closed"⟩ }

/-- C7 (amended): a failure of one of the two output streams — the output
sink or the stderr diagnostic stream carrying the per-path/per-child error
reports — is the only error that unwinds the whole traversal: with both
streams never refusing a write, the run succeeds no matter what was
listed; any error the run returns is exactly one of the two streams' own
error values, propagated unchanged to the top level; and at the top level
a BrokenPipe error kind exits 0 (clean termination) while every other run
error exits 1. -/
theorem C7_stream_failure_only_unwind :
    (∀ (o : TravOpts) (fuel : Nat) (args : List Resolved) (st : Streams),
        st.sink.failAfter = none → st.diag.failAfter = none →
        ∃ st', runExa o fuel args st = .ok st')
    ∧ (∀ (o : TravOpts) (fuel : Nat) (args : List Resolved) (st : Streams) (e : IOErr),
        runExa o fuel args st = .error e →
        e = st.sink.failErr ∨ e = st.diag.failErr)
    ∧ (∀ u : Unit, mainExit (.ok u) = 0)
    ∧ (∀ m : String, mainExit (.error ⟨.brokenPipe, m⟩) = 0)
    ∧ (∀ e : IOErr, e.kind ≠ .brokenPipe → mainExit (.error e) = 1) := by
  refine ⟨?_, ?_, fun _ => rfl, fun _ => rfl, ?_⟩
  · intro o fuel args st hs hd
    have hg := goodOk2_runExa o fuel args st hs hd
    cases hr : runExa o fuel args st with
    | ok st' => exact ⟨st', rfl⟩
    | error e => rw [hr] at hg; exact absurd hg (by simp [goodOk2])
  · intro o fuel args st e h
    have hp := presErr2_runExa o fuel args st
    rw [h] at hp
    exact hp
  · intro e h
    cases e with
    | mk k m =>
      cases k with
      | brokenPipe => exact absurd rfl h
      | notFound => rfl
      | permissionDenied => rfl
      | writeZero => rfl
      | otherKind => rfl

/-- Witness for C7: the non-failing-streams conjunct instantiated at a run
with both a per-path error and a directory argument, the propagation
conjunct at a run whose sink refuses its first write, and the exit-code
conjuncts at concrete errors — every hypothesis discharged concretely. -/
theorem C7_stream_failure_only_unwind_witness :
    (∃ st', runExa ⟨defaultFilter, .List⟩ 4 [.err "nope", .ok dOnly] streams0 = .ok st')
    ∧ ((⟨.brokenPipe, "pipe"⟩ : IOErr) = badSink.failErr
        ∨ (⟨.brokenPipe, "pipe"⟩ : IOErr) = diag0.failErr)
    ∧ mainExit (.ok ()) = 0
    ∧ mainExit (.error ⟨.brokenPipe, "pipe"⟩) = 0
    ∧ mainExit (.error ⟨.otherKind, "boom"⟩) = 1 :=
  ⟨C7_stream_failure_only_unwind.1 ⟨defaultFilter, .List⟩ 4 [.err "nope", .ok dOnly]
      streams0 rfl rfl,
   C7_stream_failure_only_unwind.2.1 ⟨defaultFilter, .List⟩ 4 [.ok dOnly]
      ⟨badSink, diag0⟩ _ rfl,
   C7_stream_failure_only_unwind.2.2.1 (),
   C7_stream_failure_only_unwind.2.2.2.1 "pipe",
   C7_stream_failure_only_unwind.2.2.2.2 ⟨.otherKind, "boom"⟩ (by decide)⟩

/-- Counterexample for C7 as frozen: the output sink is not the only error
source that unwinds the traversal. A single unresolvable path argument
makes `Exa::run` report it with `try!(writeln!(stderr(), ..))` (src/exa.rs
line 67); when the stderr diagnostic stream refuses that write, the whole
run unwinds with the diagnostic stream's error — although the output sink
never failed (its budget is unlimited) and the error is not the sink's. -/
theorem C7_stream_failure_cex :
    runExa ⟨defaultFilter, .List⟩ 4 [.err "nope"] ⟨sink0, badDiag⟩
      = .error ⟨.otherKind, "stderr closed"⟩
    ∧ sink0.failAfter = none
    ∧ (⟨.otherKind, "stderr closed"⟩ : IOErr) ≠ sink0.failErr := by
  exact ⟨rfl, rfl, by decide⟩

/-- All-off matches: no view flags, colours never, no column flags. -/
def mBase : Matches :=
  { oneline := false, tree := false, long := false, grid := false, across := false
    header := false, extended := false, color_scale := false, color := .Never
    binary := false, bytes := false, inode := false, links := false, blocks := false
    group := false, git := false, modified := false, created := false
    accessed := false, time := none }

/-- The long-grid combination (`-lG`), otherwise all off. -/
def mLG : Matches := { mBase with long := true, grid := true }

/-- C6 (amended): when no terminal width can be determined (neither a
COLUMNS override nor terminal dimensions), a run that would use the Grid
view uses the Lines view instead, and a run that would use the GridDetails
view also uses the Lines view — not the Details view: the long+grid branch
re-runs the width scan and returns its no-width result unchanged, which is
Lines whenever tree mode is off (and a would-be Grid/GridDetails run has
tree off). -/
theorem C6_no_width_fallback (m : Matches) (w : Nat) (f : FileFilter) (da : DirAction)
    (x g : Bool) :
    ((viewDeduce m (some w) none f da x g).isGrid = true →
        (viewDeduce m none none f da x g).isLines = true)
    ∧ ((viewDeduce m (some w) none f da x g).isGridDetails = true →
        (viewDeduce m none none f da x g).isLines = true) := by
  cases hl : m.long <;> cases ho : m.oneline <;> cases ht : m.tree <;> cases hg : m.grid <;>
    simp [viewDeduce, termWidthDeduce, View.isGrid, View.isGridDetails, View.isLines,
      hl, ho, ht, hg]

/-- Witness for C6: the two implications instantiated at concrete matches
that do resolve to Grid (all flags off) and GridDetails (long+grid) when a
width is available, hypotheses discharged concretely. -/
theorem C6_no_width_fallback_witness :
    (viewDeduce mBase none none defaultFilter .List false false).isLines = true
    ∧ (viewDeduce mLG none none defaultFilter .List false false).isLines = true :=
  ⟨(C6_no_width_fallback mBase 80 defaultFilter .List false false).1 rfl,
   (C6_no_width_fallback mLG 80 defaultFilter .List false false).2 rfl⟩

/-- Counterexample for C6 as frozen: with `--long --grid` and no width, the
resolved view is Lines, not Details — the claim's GridDetails→Details
fallback does not hold. With a width the same matches resolve to
GridDetails. -/
theorem C6_no_width_fallback_cex :
    (viewDeduce mLG (some 80) none defaultFilter .List false false).isGridDetails = true
    ∧ (viewDeduce mLG none none defaultFilter .List false false).isDetails = false
    ∧ (viewDeduce mLG none none defaultFilter .List false false).isLines = true := by
  exact ⟨rfl, rfl, rfl⟩

/-- A column set with every boolean column flag off. -/
def columnsNoFlags (tt : TimeTypes) : Columns :=
  { size_format := .DecimalBytes, time_types := tt, inode := false, links := false
    blocks := false, group := false, git := false }

/-- C8: the three timestamp columns are independently toggleable, and the
documented behaviour (and the legacy `TimeTypes::deduce`, src/options.rs
lines 443-461) is that with none toggled the resolved column set contains
the modified-time column as implicit default; but the modular
`From<&ArgMatches> for TimeTypes` (src/output/column.rs lines 212-223),
the one the modular view resolver uses, returns all-false with nothing
toggled, so `for_dir` emits no timestamp column at all — contradicting its
own doc comment ("passing *no* options means that the user just wants to
see the default set") and the `TimeTypes` doc ("There should always be at
least one of these"). -/
theorem C8_time_column_default :
    (timeTypesFrom false false false none = ⟨false, false, false⟩)
    ∧ ((columnsNoFlags (timeTypesFrom false false false none)).for_dir false none
        = [.Permissions, .FileSize .DecimalBytes, .User])
    ∧ (timeTypesDeduce false false false none = ⟨false, true, false⟩)
    ∧ ((columnsNoFlags (timeTypesDeduce false false false none)).for_dir false none
        = [.Permissions, .FileSize .DecimalBytes, .User, .Timestamp .Modified])
    ∧ (timeTypesDeduce true false false none = ⟨false, true, false⟩)
    ∧ (timeTypesDeduce false true false none = ⟨false, false, true⟩)
    ∧ (timeTypesDeduce false false true none = ⟨true, false, false⟩)
    ∧ (timeTypesDeduce true true true none = ⟨true, true, true⟩)
    ∧ ((columnsNoFlags (timeTypesDeduce false false true none)).for_dir false none
        = [.Permissions, .FileSize .DecimalBytes, .User, .Timestamp .Accessed]) := by
  decide

end Exa
